import Mathlib

/-!
A shallow embedding of `cf.js`, the export script of cloudflareDumper.

The script reads its configuration from the process environment, pages through the zones of each
configured account, and for every zone fetches seven resources and writes each to a JSON file.

Conventions of the embedding.

* A JavaScript string is a Lean `String`; `undefined` is `none` in `Option Json`.
* A rejected promise or a thrown exception is `Except.error` carrying the error message.
* The network is an oracle `World.respond`: the `n`-th request of the run, sent to a given
  endpoint, either fails at transport level or delivers a complete response body.  The
  authentication headers are the same on every request and are not represented.
* Built-ins of the JavaScript platform that the script calls but does not define
  (`JSON.parse`, `JSON.stringify`, `String.prototype.toLowerCase`, `path.join`, `__dirname`)
  are fields of `Platform`; every general theorem holds for every platform.
* The file system accepts every `mkdir` and `writeFile`; it is the state `FileSystem`.
* Console output has no influence on control flow and is not represented.
* `while (true)` is a loop with fuel: `none` means that the loop was still running when the fuel
  ran out (or that a zone listing was outside the data model, see `asZoneList`).
-/

namespace CloudflareDumper

/-! ## Strings -/

/-- WhiteSpace and LineTerminator code points, the ones `String.prototype.trim` strips. -/
def isWhiteSpace (c : Char) : Bool :=
  let n := c.toNat
  n = 0x09 || n = 0x0A || n = 0x0B || n = 0x0C || n = 0x0D || n = 0x20 || n = 0xA0 ||
  n = 0x1680 || (0x2000 ≤ n && n ≤ 0x200A) || n = 0x2028 || n = 0x2029 || n = 0x202F ||
  n = 0x205F || n = 0x3000 || n = 0xFEFF

/-- Characters of `s.trim()`. -/
def trimChars (cs : List Char) : List Char :=
  ((cs.dropWhile isWhiteSpace).reverse.dropWhile isWhiteSpace).reverse

/-- The method `s.trim()`. -/
def trim (s : String) : String := ⟨trimChars s.data⟩

/-- Characters of the pieces of `s.split(sep)` for a one-character separator. -/
def splitChars (sep : Char) : List Char → List (List Char)
  | [] => [[]]
  | c :: cs =>
    if c = sep then [] :: splitChars sep cs
    else
      match splitChars sep cs with
      | [] => [[c]]
      | w :: ws => (c :: w) :: ws

/-- The call `s.split(",")`. -/
def splitComma (s : String) : List String := (splitChars ',' s.data).map String.mk

/-- The call `s.replace(/\./g, "_")`. -/
def replaceDots (s : String) : String :=
  ⟨s.data.map (fun c => if c = '.' then '_' else c)⟩

/-! ## Configuration (lines 12-31) -/

/-- The entries of `process.env` that steer the export; `none` is an unset variable. -/
structure ProcessEnv where
  CF_ACCOUNT_IDS : Option String
  CF_ACCOUNT_ID : Option String
  ZONES_TO_EXPORT : Option String

/-- The expression `v || ""` for an environment variable. -/
def orEmpty : Option String → String
  | none => ""
  | some v => v

/-- The constant `ACCOUNT_IDS`, lines 18-25. -/
def ACCOUNT_IDS (env : ProcessEnv) : List String :=
  let ids := ((splitComma (orEmpty env.CF_ACCOUNT_IDS)).map trim).filter (fun id => id ≠ "")
  if ids.length = 0 ∧ orEmpty env.CF_ACCOUNT_ID ≠ "" then
    ids ++ [trim (orEmpty env.CF_ACCOUNT_ID)]
  else ids

/-- The constant `ZONES_TO_EXPORT`, lines 29-31. -/
def ZONES_TO_EXPORT (env : ProcessEnv) : List String :=
  (splitComma (orEmpty env.ZONES_TO_EXPORT)).filter (fun zone => trim zone ≠ "")

/-! ## JSON values and the platform -/

/-- A number as the script sees it: it is never computed with, only tested for truthiness and
printed, so the embedding keeps whether it is zero and its text. -/
structure JsNumber where
  isZero : Bool
  text : String

/-- The values `JSON.parse` can return. An object is its list of own properties. -/
inductive Json where
  | null
  | bool (b : Bool)
  | num (n : JsNumber)
  | str (s : String)
  | arr (items : List Json)
  | obj (props : List (String × Json))

/-- Platform built-ins the script calls. `jsonParse` returns the message of the `SyntaxError`
when the text is not JSON; `jsonStringifyIndent v` is `JSON.stringify(v, null, 2)`. -/
structure Platform where
  jsonParse : String → Except String Json
  jsonStringify : Json → String
  jsonStringifyIndent : Json → String
  toLowerCase : String → String
  pathJoin : String → String → String
  dirname : String

/-- Property read `v.key` for a key that no prototype defines (the script reads `success`,
`errors` and `result`): a `TypeError` on `null`, `undefined` where the property is missing. -/
def getProp (v : Json) (key : String) : Except String (Option Json) :=
  match v with
  | .null => .error ("Cannot read properties of null (reading \x27" ++ key ++ "\x27)")
  | .obj props => .ok (props.lookup key)
  | _ => .ok none

/-- Truthiness, as tested by `!v`. -/
def truthy : Option Json → Bool
  | none => false
  | some .null => false
  | some (.bool b) => b
  | some (.num n) => !n.isZero
  | some (.str s) => s ≠ ""
  | some (.arr _) => true
  | some (.obj _) => true

/-- The text a template literal inserts for `JSON.stringify(v)`. -/
def stringifyInTemplate (P : Platform) : Option Json → String
  | none => "undefined"
  | some v => P.jsonStringify v

/-! ## HTTP client (lines 56-96) -/

/-- The network: what the `n`-th request of the run, sent to `endpoint`, comes back with: a
transport error (the message of the `error` event) or the complete response body. -/
structure World where
  respond : Nat → String → Except String String

/-- The handler of the `end` event, lines 72-87, applied to the buffered body. -/
def onEnd (P : Platform) (data : String) : Except String Json :=
  match P.jsonParse data with
  | .error message => .error ("Failed to parse response: " ++ message)
  | .ok parsedData =>
    match getProp parsedData "success" with
    | .error message => .error ("Failed to parse response: " ++ message)
    | .ok success =>
      if !truthy success then
        match getProp parsedData "errors" with
        | .error message => .error ("Failed to parse response: " ++ message)
        | .ok errors => .error ("API request failed: " ++ stringifyInTemplate P errors)
      else .ok parsedData

/-- How the promise of the `n`-th request settles. -/
def settle (W : World) (P : Platform) (n : Nat) (endpoint : String) : Except String Json :=
  match W.respond n endpoint with
  | .error message => .error message
  | .ok data => onEnd P data

/-- The function `makeRequest`: the request is appended to the log of requests sent so far. -/
def makeRequest (W : World) (P : Platform) (endpoint : String) (log : List String) :
    Except String Json × List String :=
  (settle W P log.length endpoint, log ++ [endpoint])

/-! ## File writer (lines 33-37, 104-113) -/

/-- The part of the file system the script touches: the directories known to exist and the
`writeFile` calls made so far, oldest first, each a path and the text written. -/
structure FileSystem where
  dirs : List String
  writes : List (String × String)

/-- The constant `OUTPUT_DIR`. -/
def OUTPUT_DIR (P : Platform) : String := P.pathJoin P.dirname "cloudflare-settings"

/-- The function `saveToFile`. `JSON.stringify(undefined, null, 2)` is `undefined`, which
`writeFile` refuses with a `TypeError` after the directory has been made. -/
def saveToFile (P : Platform) (zoneFolder filename : String) (data : Option Json)
    (fs : FileSystem) : Except String Unit × FileSystem :=
  let dirPath := P.pathJoin (OUTPUT_DIR P) zoneFolder
  let fs1 : FileSystem := if fs.dirs.contains dirPath then fs else ⟨dirPath :: fs.dirs, fs.writes⟩
  let filePath := P.pathJoin dirPath filename
  match data with
  | none => (.error "The \"data\" argument must be of type string", fs1)
  | some v => (.ok (), ⟨fs1.dirs, fs1.writes ++ [(filePath, P.jsonStringifyIndent v)]⟩)

/-- State of a run: the requests sent so far, oldest first, and the file system. -/
structure State where
  requests : List String
  fs : FileSystem

/-! ## Zone enumerator (lines 116-162) -/

/-- A zone as the script uses it: the fields `id` and `name` of the API object (data model:
both strings). Other fields are never read and zones are never written out. -/
structure Zone where
  id : String
  name : String
  deriving DecidableEq, Repr

/-- A zone object of the API. -/
def Zone.ofJson : Json → Option Zone
  | .obj props =>
    match props.lookup "id", props.lookup "name" with
    | some (.str id), some (.str name) => some ⟨id, name⟩
    | _, _ => none
  | _ => none

/-- All elements of an array as zones, if every one is a zone object. -/
def decodeZones : List Json → Option (List Zone)
  | [] => some []
  | j :: js =>
    match Zone.ofJson j, decodeZones js with
    | some z, some zs => some (z :: zs)
    | _, _ => none

/-- What `allZones.push(...zones)` meets in `response.result`. -/
inductive ZoneList where
  | zones (zs : List Zone)
  | notIterable
  | outsideModel
  deriving DecidableEq, Repr

/-- The `result` of a zone listing. An array of zone objects is the data model. A value that
is not iterable (`undefined`, `null`, a boolean, a number, an object) makes the spread throw a
`TypeError`. Strings and arrays with other elements are outside the data model: the script
goes on with them (and may throw later, at `zone.name`), which the embedding does not follow;
`zonePagesLoop` answers `none` there and the theorems that need a result assume such values
away. -/
def asZoneList : Option Json → ZoneList
  | some (.arr items) =>
    match decodeZones items with
    | some zs => .zones zs
    | none => .outsideModel
  | some (.str _) => .outsideModel
  | _ => .notIterable

/-- The constant `perPage`. -/
def perPage : Nat := 50

/-- The endpoint of one page of the zone listing, line 124. -/
def zonesEndpoint (accountId : String) (page : Nat) : String :=
  "/zones?account.id=" ++ accountId ++ "&page=" ++ toString page ++ "&per_page=" ++
    toString perPage

/-- The `while (true)` loop of lines 122-134, entered with `page` and `allZones`. The result
is `error` when the loop body throws, `ok allZones` when the loop breaks. -/
def zonePagesLoop (W : World) (P : Platform) (accountId : String) :
    Nat → Nat → List Zone → List String → Option (Except String (List Zone) × List String)
  | 0, _, _, _ => none
  | fuel + 1, page, allZones, log =>
    match makeRequest W P (zonesEndpoint accountId page) log with
    | (.error message, log1) => some (.error message, log1)
    | (.ok response, log1) =>
      match getProp response "result" with
      | .error message => some (.error message, log1)
      | .ok result =>
        match asZoneList result with
        | .outsideModel => none
        | .notIterable => some (.error "zones is not iterable", log1)
        | .zones zones =>
          if zones.length < perPage then some (.ok (allZones ++ zones), log1)
          else zonePagesLoop W P accountId fuel (page + 1) (allZones ++ zones) log1

/-- Lines 141-151: the allow-list filter applied to the zones collected. -/
def selectZones (P : Platform) (zonesToExport : List String) (allZones : List Zone) :
    List Zone :=
  if zonesToExport.length > 0 then
    let zoneFilters := zonesToExport.map P.toLowerCase
    allZones.filter (fun zone => zoneFilters.contains (P.toLowerCase zone.name))
  else allZones

/-- The function `getZonesForAccount`. -/
def getZonesForAccount (W : World) (P : Platform) (zonesToExport : List String) (fuel : Nat)
    (accountId : String) (log : List String) : Option (List Zone × List String) :=
  match zonePagesLoop W P accountId fuel 1 [] log with
  | none => none
  | some (.error _, log1) => some ([], log1)
  | some (.ok allZones, log1) => some (selectZones P zonesToExport allZones, log1)

/-! ## Resource exporters (lines 165-286) -/

/-- The common body of the seven zone exporters: one request, `response.result` saved under
`filename` in the folder `zoneName` and returned; `[]` when anything in the `try` throws. -/
def fetchAndSave (W : World) (P : Platform) (endpoint zoneName filename : String) (s : State) :
    Option Json × State :=
  match makeRequest W P endpoint s.requests with
  | (.error _, log) => (some (.arr []), ⟨log, s.fs⟩)
  | (.ok response, log) =>
    match getProp response "result" with
    | .error _ => (some (.arr []), ⟨log, s.fs⟩)
    | .ok result =>
      match saveToFile P zoneName filename result s.fs with
      | (.error _, fs) => (some (.arr []), ⟨log, fs⟩)
      | (.ok _, fs) => (result, ⟨log, fs⟩)

/-- The function `getDnsRecords`. -/
def getDnsRecords (W : World) (P : Platform) (zoneId zoneName accountId : String) (s : State) :
    Option Json × State :=
  fetchAndSave W P ("/zones/" ++ zoneId ++ "/dns_records") zoneName
    ("dns_records_" ++ accountId ++ "_" ++ zoneName ++ ".json") s

/-- The function `getPageRules`. -/
def getPageRules (W : World) (P : Platform) (zoneId zoneName accountId : String) (s : State) :
    Option Json × State :=
  fetchAndSave W P ("/zones/" ++ zoneId ++ "/pagerules") zoneName
    ("page_rules_" ++ accountId ++ "_" ++ zoneName ++ ".json") s

/-- The function `getFirewallRules`. -/
def getFirewallRules (W : World) (P : Platform) (zoneId zoneName accountId : String)
    (s : State) : Option Json × State :=
  fetchAndSave W P ("/zones/" ++ zoneId ++ "/firewall/rules") zoneName
    ("firewall_rules_" ++ accountId ++ "_" ++ zoneName ++ ".json") s

/-- The function `getZoneWorkers`. -/
def getZoneWorkers (W : World) (P : Platform) (zoneId zoneName accountId : String) (s : State) :
    Option Json × State :=
  fetchAndSave W P ("/zones/" ++ zoneId ++ "/workers/scripts") zoneName
    ("workers_" ++ accountId ++ "_" ++ zoneName ++ ".json") s

/-- The function `getAccountWorkers`: the call of `saveToFile` is commented out. -/
def getAccountWorkers (W : World) (P : Platform) (accountId : String) (s : State) :
    Option Json × State :=
  match makeRequest W P ("/accounts/" ++ accountId ++ "/workers/scripts") s.requests with
  | (.error _, log) => (some (.arr []), ⟨log, s.fs⟩)
  | (.ok response, log) =>
    match getProp response "result" with
    | .error _ => (some (.arr []), ⟨log, s.fs⟩)
    | .ok workers => (workers, ⟨log, s.fs⟩)

/-- The function `getSslSettings`. -/
def getSslSettings (W : World) (P : Platform) (zoneId zoneName accountId : String) (s : State) :
    Option Json × State :=
  fetchAndSave W P ("/zones/" ++ zoneId ++ "/settings/ssl") zoneName
    ("ssl_settings_" ++ accountId ++ "_" ++ zoneName ++ ".json") s

/-- The function `getCachingSettings`. -/
def getCachingSettings (W : World) (P : Platform) (zoneId zoneName accountId : String)
    (s : State) : Option Json × State :=
  fetchAndSave W P ("/zones/" ++ zoneId ++ "/settings/cache_level") zoneName
    ("caching_settings_" ++ accountId ++ "_" ++ zoneName ++ ".json") s

/-- The function `getAllZoneSettings`. -/
def getAllZoneSettings (W : World) (P : Platform) (zoneId zoneName accountId : String)
    (s : State) : Option Json × State :=
  fetchAndSave W P ("/zones/" ++ zoneId ++ "/settings") zoneName
    ("all_settings_" ++ accountId ++ "_" ++ zoneName ++ ".json") s

/-! ## Orchestrator (lines 289-345) -/

/-- Body of the loop over zones, lines 319-333. -/
def processZone (W : World) (P : Platform) (accountId : String) (zone : Zone) (s : State) :
    State :=
  let zoneId := zone.id
  let zoneName := replaceDots zone.name
  let s1 := (getAllZoneSettings W P zoneId zoneName accountId s).2
  let s2 := (getDnsRecords W P zoneId zoneName accountId s1).2
  let s3 := (getPageRules W P zoneId zoneName accountId s2).2
  let s4 := (getFirewallRules W P zoneId zoneName accountId s3).2
  let s5 := (getZoneWorkers W P zoneId zoneName accountId s4).2
  let s6 := (getSslSettings W P zoneId zoneName accountId s5).2
  (getCachingSettings W P zoneId zoneName accountId s6).2

/-- The loop over accounts, lines 309-335, run on the accounts still to do. -/
def processAccounts (W : World) (P : Platform) (zonesToExport : List String) (fuel : Nat) :
    List String → State → Option State
  | [], s => some s
  | accountId :: rest, s =>
    let s1 := (getAccountWorkers W P accountId s).2
    match getZonesForAccount W P zonesToExport fuel accountId s1.requests with
    | none => none
    | some (zones, log2) =>
      processAccounts W P zonesToExport fuel rest
        (zones.foldl (fun st zone => processZone W P accountId zone st) ⟨log2, s1.fs⟩)

/-- How a run ends: `process.exit(code)` was called, or `dumpAllSettings` returned. -/
inductive Outcome where
  | exited (code : Nat) (s : State)
  | completed (s : State)

/-- The function `dumpAllSettings`. -/
def dumpAllSettings (W : World) (P : Platform) (accountIds zonesToExport : List String)
    (fuel : Nat) (s : State) : Option Outcome :=
  if accountIds.length = 0 then some (.exited 1 s)
  else
    match processAccounts W P zonesToExport fuel accountIds s with
    | none => none
    | some s1 => some (.completed s1)

/-! ## Vocabulary of the properties -/

/-- The seven zone-scoped resource kinds, named as in the file names. -/
inductive ResourceKind where
  | all_settings
  | dns_records
  | page_rules
  | firewall_rules
  | workers
  | ssl_settings
  | caching_settings
  deriving DecidableEq, Repr

/-- The name of a resource kind, the first part of its file names. -/
def ResourceKind.label : ResourceKind → String
  | .all_settings => "all_settings"
  | .dns_records => "dns_records"
  | .page_rules => "page_rules"
  | .firewall_rules => "firewall_rules"
  | .workers => "workers"
  | .ssl_settings => "ssl_settings"
  | .caching_settings => "caching_settings"

/-- The path of a resource kind below `/zones/<zone id>`. -/
def ResourceKind.path : ResourceKind → String
  | .all_settings => "/settings"
  | .dns_records => "/dns_records"
  | .page_rules => "/pagerules"
  | .firewall_rules => "/firewall/rules"
  | .workers => "/workers/scripts"
  | .ssl_settings => "/settings/ssl"
  | .caching_settings => "/settings/cache_level"

/-- The exporter of the script for each resource kind. -/
def ResourceKind.exporter (kind : ResourceKind) (W : World) (P : Platform)
    (zoneId zoneName accountId : String) (s : State) : Option Json × State :=
  match kind with
  | .all_settings => getAllZoneSettings W P zoneId zoneName accountId s
  | .dns_records => getDnsRecords W P zoneId zoneName accountId s
  | .page_rules => getPageRules W P zoneId zoneName accountId s
  | .firewall_rules => getFirewallRules W P zoneId zoneName accountId s
  | .workers => getZoneWorkers W P zoneId zoneName accountId s
  | .ssl_settings => getSslSettings W P zoneId zoneName accountId s
  | .caching_settings => getCachingSettings W P zoneId zoneName accountId s

/-- The seven resource kinds in the order `dumpAllSettings` exports them for a zone. -/
def ResourceKind.order : List ResourceKind :=
  [.all_settings, .dns_records, .page_rules, .firewall_rules, .workers, .ssl_settings,
   .caching_settings]

/-- The three ways the `n`-th request, sent to `endpoint`, fails: a transport error, a body
that is not JSON, an envelope whose `success` is `false`. -/
def RequestFails (W : World) (P : Platform) (n : Nat) (endpoint : String) : Prop :=
  (∃ message, W.respond n endpoint = .error message) ∨
  (∃ data message, W.respond n endpoint = .ok data ∧ P.jsonParse data = .error message) ∨
  (∃ data envelope, W.respond n endpoint = .ok data ∧ P.jsonParse data = .ok envelope ∧
    getProp envelope "success" = .ok (some (.bool false)))

/-- What the request for `page` of the zone listing delivers when it is the `n`-th request of
the run: the error of the request, or `response.result` as a zone list. -/
def zonesReply (W : World) (P : Platform) (n : Nat) (accountId : String) (page : Nat) :
    Except String ZoneList :=
  match settle W P n (zonesEndpoint accountId page) with
  | .error message => .error message
  | .ok response =>
    match getProp response "result" with
    | .error message => .error message
    | .ok result => .ok (asZoneList result)

/-- Equality of replies is decidable. -/
instance decEqReply : DecidableEq (Except String ZoneList) := fun a b =>
  match a, b with
  | .ok x, .ok y =>
    if h : x = y then isTrue (by rw [h]) else isFalse (fun e => h (by cases e; rfl))
  | .error x, .error y =>
    if h : x = y then isTrue (by rw [h]) else isFalse (fun e => h (by cases e; rfl))
  | .ok _, .error _ => isFalse (fun e => by cases e)
  | .error _, .ok _ => isFalse (fun e => by cases e)

/-- A reply that makes the loop go on: a page of at least `perPage` zones. -/
def isFullPage : Except String ZoneList → Bool
  | .ok (.zones zs) => decide (perPage ≤ zs.length)
  | _ => false

/-- A reply outside the data model. -/
def isOutsideModel : Except String ZoneList → Bool
  | .ok .outsideModel => true
  | _ => false

/-- Page `page` of a server that holds the zones `zs`: the zones with indices
`(page - 1) * perPage` up to, and without, `min (page * perPage) zs.length`. -/
def serverPage (zs : List Zone) (page : Nat) : List Zone :=
  (zs.drop ((page - 1) * perPage)).take perPage

/-- The endpoints of pages `1 .. count` of the zone listing of an account, in order. -/
def pageRequests (accountId : String) (count : Nat) : List String :=
  (List.range count).map (fun i => zonesEndpoint accountId (i + 1))

/-- The seven requests for a zone, in the order all-settings, DNS, page rules, firewall rules,
workers, SSL, caching. -/
def zoneRequests (zoneId : String) : List String :=
  ["/zones/" ++ zoneId ++ "/settings", "/zones/" ++ zoneId ++ "/dns_records",
   "/zones/" ++ zoneId ++ "/pagerules", "/zones/" ++ zoneId ++ "/firewall/rules",
   "/zones/" ++ zoneId ++ "/workers/scripts", "/zones/" ++ zoneId ++ "/settings/ssl",
   "/zones/" ++ zoneId ++ "/settings/cache_level"]

/-- The request sequence the orchestrator is specified to produce, after the requests in `log`:
for each account in order, the account-workers request, then the pages of its zone listing
(as many as `getZonesForAccount` asks for), then the seven requests of each zone that
`getZonesForAccount` returns, in the order returned. -/
def expectedRequests (W : World) (P : Platform) (zonesToExport : List String) (fuel : Nat) :
    List String → List String → List String
  | [], log => log
  | accountId :: rest, log =>
    let log1 := log ++ ["/accounts/" ++ accountId ++ "/workers/scripts"]
    match getZonesForAccount W P zonesToExport fuel accountId log1 with
    | none => log1
    | some (zones, log2) =>
      expectedRequests W P zonesToExport fuel rest
        (log1 ++ pageRequests accountId (log2.length - log1.length) ++
          zones.flatMap (fun zone => zoneRequests zone.id))

/-! ## A platform and worlds for the examples -/

mutual
/-- Compact JSON text of a value whose strings need no escaping. -/
def render : Json → String
  | .null => "null"
  | .bool b => if b then "true" else "false"
  | .num n => n.text
  | .str s => "\"" ++ s ++ "\""
  | .arr items => "[" ++ renderItems items ++ "]"
  | .obj props => "\x7b" ++ renderProps props ++ "\x7d"
/-- Elements of an array, separated by commas. -/
def renderItems : List Json → String
  | [] => ""
  | [v] => render v
  | v :: vs => render v ++ "," ++ renderItems vs
/-- Properties of an object, separated by commas. -/
def renderProps : List (String × Json) → String
  | [] => ""
  | [(k, v)] => "\"" ++ k ++ "\":" ++ render v
  | (k, v) :: ps => "\"" ++ k ++ "\":" ++ render v ++ "," ++ renderProps ps
end

/-- Indentation of `depth` levels, two spaces each. -/
def pad (depth : Nat) : String := String.mk (List.replicate (2 * depth) ' ')

mutual
/-- JSON text with two-space indentation, of a value whose strings need no escaping. -/
def renderIndent (depth : Nat) : Json → String
  | .null => "null"
  | .bool b => if b then "true" else "false"
  | .num n => n.text
  | .str s => "\"" ++ s ++ "\""
  | .arr [] => "[]"
  | .arr (v :: vs) => "[\n" ++ renderIndentItems (depth + 1) (v :: vs) ++ "\n" ++ pad depth ++ "]"
  | .obj [] => "\x7b\x7d"
  | .obj (p :: ps) =>
    "\x7b\n" ++ renderIndentProps (depth + 1) (p :: ps) ++ "\n" ++ pad depth ++ "\x7d"
/-- Elements of an array, one per line. -/
def renderIndentItems (depth : Nat) : List Json → String
  | [] => ""
  | [v] => pad depth ++ renderIndent depth v
  | v :: vs => pad depth ++ renderIndent depth v ++ ",\n" ++ renderIndentItems depth vs
/-- Properties of an object, one per line. -/
def renderIndentProps (depth : Nat) : List (String × Json) → String
  | [] => ""
  | [(k, v)] => pad depth ++ "\"" ++ k ++ "\": " ++ renderIndent depth v
  | (k, v) :: ps =>
    pad depth ++ "\"" ++ k ++ "\": " ++ renderIndent depth v ++ ",\n" ++ renderIndentProps depth ps
end

/-- A platform for the examples. Its `JSON.parse` recognises the texts of the values in `known`
and rejects every other text; its lower-casing is the ASCII one; its `path.join` is the POSIX one
on segments that are already normal. -/
def examplePlatform (known : List Json) : Platform where
  jsonParse := fun text =>
    match known.find? (fun v => render v == text) with
    | some v => .ok v
    | none => .error "Unexpected token"
  jsonStringify := render
  jsonStringifyIndent := renderIndent 0
  toLowerCase := fun s => ⟨s.data.map Char.toLower⟩
  pathJoin := fun a b => a ++ "/" ++ b
  dirname := "/srv/dumper"

/-- A world that answers the `n`-th request with the `n`-th entry of `replies`, whatever the
endpoint, and with a transport error once the entries are used up. -/
def scriptedWorld (replies : List (Except String String)) : World where
  respond := fun n _ => replies.getD n (.error "socket hang up")

/-- A world that answers by endpoint, whatever the position of the request in the run: with
the body listed for the endpoint, and with a transport error for an endpoint not listed. -/
def endpointWorld (bodies : List (String × String)) : World where
  respond := fun _ endpoint =>
    match bodies.lookup endpoint with
    | some data => .ok data
    | none => .error "socket hang up"

/-- A world that answers every request, whenever sent and whatever the endpoint, with the
same body. -/
def constantWorld (data : String) : World where
  respond := fun _ _ => .ok data

/-- The API object of a zone. -/
def zoneJson (z : Zone) : Json := .obj [("id", .str z.id), ("name", .str z.name)]

/-- A successful envelope with the given result. -/
def successEnvelope (result : Json) : Json :=
  .obj [("success", .bool true), ("errors", .arr []), ("result", result)]

/-- A successful envelope of a zone listing. -/
def zonesEnvelope (zs : List Zone) : Json := successEnvelope (.arr (zs.map zoneJson))

/-- An envelope that reports failure. -/
def failureEnvelope : Json :=
  .obj [("success", .bool false),
    ("errors", .arr [.obj [("code", .num ⟨false, "9109"⟩), ("message", .str "Invalid token")]])]

/-- Two zones of an example account. -/
def exampleZones : List Zone := [⟨"z1", "a.com"⟩, ⟨"z2", "b.com"⟩]

/-- The state before the first request, with the output directory made (lines 34-37). -/
def initialState (P : Platform) : State := ⟨[], ⟨[OUTPUT_DIR P], []⟩⟩

/-- Fifty zones, one full page. -/
def fiftyZones : List Zone :=
  (List.range 50).map (fun i => ⟨"id" ++ toString i, "site" ++ toString i ++ ".com"⟩)

/-- A server that holds the fifty zones of `fiftyZones` for account `acc`: page 1 is the full
page, page 2 the empty one. -/
def fiftyZonesWorld : World :=
  endpointWorld [(zonesEndpoint "acc" 1, render (zonesEnvelope fiftyZones)),
    (zonesEndpoint "acc" 2, render (zonesEnvelope []))]

/-- The example platform that knows the two bodies of `fiftyZonesWorld`. -/
def fiftyZonesPlatform : Platform := examplePlatform [zonesEnvelope fiftyZones, zonesEnvelope []]

/-- A server on which every request succeeds and every page of every zone listing is a full
page of fifty zones. -/
def endlessWorld : World := constantWorld (render (zonesEnvelope fiftyZones))

/-- The example platform that knows the body of `endlessWorld`. -/
def endlessPlatform : Platform := examplePlatform [zonesEnvelope fiftyZones]

/-- A successful envelope that has no `result` field. -/
def bareEnvelope : Json := .obj [("success", .bool true), ("errors", .arr [])]

/-- A DNS record of an example zone. -/
def exampleRecord : Json :=
  .obj [("id", .str "r1"), ("type", .str "A"), ("name", .str "a.com"),
    ("content", .str "192.0.2.1")]

/-- A run against account `acc`: the account-workers request meets a transport error, the
zone listing delivers the two example zones, the all-settings request of the first zone gets a
body that is not JSON, its DNS request succeeds, and every later request meets a transport
error. -/
def exampleWorld : World :=
  scriptedWorld [.error "ECONNRESET", .ok (render (zonesEnvelope exampleZones)), .ok "<html>",
    .ok (render (successEnvelope (.arr [exampleRecord])))]

/-- The example platform that knows the bodies of `exampleWorld`. -/
def exampleRunPlatform : Platform :=
  examplePlatform [zonesEnvelope exampleZones, successEnvelope (.arr [exampleRecord])]

/-! ## Theorems -/

/-- The allow-list test of `selectZones` is membership of the lower-cased name among the
lower-cased entries. -/
theorem contains_lower_iff (P : Platform) (zonesToExport : List String) (name : String) :
    (zonesToExport.map P.toLowerCase).contains (P.toLowerCase name) = true ↔
      ∃ entry ∈ zonesToExport, P.toLowerCase name = P.toLowerCase entry := by
  simp only [List.contains_iff_exists_mem_beq, List.mem_map, beq_iff_eq, exists_exists_and_eq_and]

/-- The filter of `selectZones`, written with the membership test spelled out. -/
theorem selectZones_eq_filter (P : Platform) (zonesToExport : List String) (allZones : List Zone)
    (hne : zonesToExport ≠ []) :
    selectZones P zonesToExport allZones =
      allZones.filter (fun zone =>
        decide (∃ entry ∈ zonesToExport, P.toLowerCase zone.name = P.toLowerCase entry)) := by
  have hlen : zonesToExport.length > 0 := List.length_pos.mpr hne
  simp only [selectZones, hlen, if_true]
  apply List.filter_congr
  intro zone _
  rw [Bool.eq_iff_iff, contains_lower_iff]
  simp

/-- The result of `selectZones` does not depend on the order of the allow-list. -/
theorem selectZones_perm (P : Platform) (l1 l2 : List String) (allZones : List Zone)
    (hperm : l1.Perm l2) : selectZones P l1 allZones = selectZones P l2 allZones := by
  by_cases h2 : l2 = []
  · subst h2
    rw [List.Perm.eq_nil hperm]
  · have h1 : l1 ≠ [] := fun h => h2 (by subst h; exact (List.Perm.nil_eq hperm).symm)
    rw [selectZones_eq_filter P l1 allZones h1, selectZones_eq_filter P l2 allZones h2]
    apply List.filter_congr
    intro zone _
    rw [Bool.eq_iff_iff]
    simp only [decide_eq_true_eq]
    constructor
    · rintro ⟨e, he, h⟩
      exact ⟨e, (List.Perm.mem_iff hperm).mp he, h⟩
    · rintro ⟨e, he, h⟩
      exact ⟨e, (List.Perm.mem_iff hperm).mpr he, h⟩

/-- C1. When the pagination loop has collected `allZones`, `getZonesForAccount` returns, for a
non-empty allow-list, exactly the zones of `allZones` whose lower-cased name is the lower-cased
form of some entry, in the order of `allZones`; the result is the same for every reordering of
the allow-list; and for the empty allow-list it returns `allZones` itself. -/
theorem getZonesForAccount_allow_list (W : World) (P : Platform) (zonesToExport : List String)
    (fuel : Nat) (accountId : String) (log log1 : List String) (allZones : List Zone)
    (hfetch : zonePagesLoop W P accountId fuel 1 [] log = some (.ok allZones, log1)) :
    (zonesToExport ≠ [] →
      getZonesForAccount W P zonesToExport fuel accountId log =
        some (allZones.filter (fun zone =>
          decide (∃ entry ∈ zonesToExport, P.toLowerCase zone.name = P.toLowerCase entry)),
          log1)) ∧
    (∀ reordered : List String, reordered.Perm zonesToExport →
      getZonesForAccount W P reordered fuel accountId log =
        getZonesForAccount W P zonesToExport fuel accountId log) ∧
    getZonesForAccount W P [] fuel accountId log = some (allZones, log1) := by
  refine ⟨?_, ?_, ?_⟩
  · intro hne
    simp only [getZonesForAccount, hfetch, selectZones_eq_filter P zonesToExport allZones hne]
  · intro reordered hperm
    simp only [getZonesForAccount, hfetch, selectZones_perm P reordered zonesToExport allZones hperm]
  · simp [getZonesForAccount, hfetch, selectZones]

/-- Witness for C1: one page with the two example zones, allow-list `B.COM`. -/
theorem getZonesForAccount_allow_list_witness :
    zonePagesLoop (scriptedWorld [.ok (render (zonesEnvelope exampleZones))])
        (examplePlatform [zonesEnvelope exampleZones]) "acc" 3 1 [] [] =
      some (.ok exampleZones, [zonesEndpoint "acc" 1]) ∧
    getZonesForAccount (scriptedWorld [.ok (render (zonesEnvelope exampleZones))])
        (examplePlatform [zonesEnvelope exampleZones]) ["B.COM"] 3 "acc" [] =
      some ([⟨"z2", "b.com"⟩], [zonesEndpoint "acc" 1]) :=
  ⟨by rfl,
   ((getZonesForAccount_allow_list (scriptedWorld [.ok (render (zonesEnvelope exampleZones))])
      (examplePlatform [zonesEnvelope exampleZones]) ["B.COM"] 3 "acc" []
      [zonesEndpoint "acc" 1] exampleZones (by rfl)).1 (by simp)).trans (by rfl)⟩

/-- C9 (the code departs from the claim). With `CF_ACCOUNT_IDS` unset and `CF_ACCOUNT_ID` set to
a single space, the fallback of lines 23-25 tests the untrimmed value and pushes the trimmed
one, so the derived list is `[""]`, and the orchestrator processes the empty account ID: it
requests `/accounts//workers/scripts` and the zone listing of account `""`. -/
theorem ACCOUNT_IDS_blank_fallback :
    ACCOUNT_IDS ⟨none, some " ", none⟩ = [""] ∧
    dumpAllSettings (scriptedWorld []) (examplePlatform []) (ACCOUNT_IDS ⟨none, some " ", none⟩)
        [] 1 (initialState (examplePlatform [])) =
      some (.completed ⟨["/accounts//workers/scripts", "/zones?account.id=&page=1&per_page=50"],
        ⟨["/srv/dumper/cloudflare-settings"], []⟩⟩) :=
  ⟨by decide, by rfl⟩

/-- C10 (the code departs from the claim). For `ZONES_TO_EXPORT` set to `a.com, b.com` the
parsed allow-list keeps the space of the second entry, and against an account whose zones are
`a.com` and `b.com` the enumerator returns `a.com` only. -/
theorem ZONES_TO_EXPORT_keeps_spaces :
    ZONES_TO_EXPORT ⟨none, none, some "a.com, b.com"⟩ = ["a.com", " b.com"] ∧
    getZonesForAccount (scriptedWorld [.ok (render (zonesEnvelope exampleZones))])
        (examplePlatform [zonesEnvelope exampleZones])
        (ZONES_TO_EXPORT ⟨none, none, some "a.com, b.com"⟩) 3 "acc" [] =
      some ([⟨"z1", "a.com"⟩], ["/zones?account.id=acc&page=1&per_page=50"]) :=
  ⟨by decide, by rfl⟩

/-- C3. For the body `data` that a request delivers: if `JSON.parse` rejects it with `message`,
`makeRequest` fails with `Failed to parse response: ` followed by `message`; if it parses to an
envelope whose `success` is `false`, `makeRequest` fails with `API request failed: ` followed
by `JSON.stringify` of the envelope's `errors`; if it parses to an envelope whose `success` is
`true`, `makeRequest` resolves with that envelope. -/
theorem makeRequest_contract (W : World) (P : Platform) (endpoint : String) (log : List String)
    (data : String) (hbody : W.respond log.length endpoint = .ok data) :
    (∀ message, P.jsonParse data = .error message →
      (makeRequest W P endpoint log).1 = .error ("Failed to parse response: " ++ message)) ∧
    (∀ envelope errors, P.jsonParse data = .ok envelope →
      getProp envelope "success" = .ok (some (.bool false)) →
      getProp envelope "errors" = .ok (some errors) →
      (makeRequest W P endpoint log).1 =
        .error ("API request failed: " ++ P.jsonStringify errors)) ∧
    (∀ envelope, P.jsonParse data = .ok envelope →
      getProp envelope "success" = .ok (some (.bool true)) →
      (makeRequest W P endpoint log).1 = .ok envelope) := by
  refine ⟨?_, ?_, ?_⟩
  · intro message hparse
    simp [makeRequest, settle, hbody, onEnd, hparse]
  · intro envelope errors hparse hsuccess herrors
    simp [makeRequest, settle, hbody, onEnd, hparse, hsuccess, herrors, truthy,
      stringifyInTemplate]
  · intro envelope hparse hsuccess
    simp [makeRequest, settle, hbody, onEnd, hparse, hsuccess, truthy]

/-- Witness for C3: a body that is not JSON, a failure envelope and a success envelope. -/
theorem makeRequest_contract_witness :
    (makeRequest (scriptedWorld [.ok "<html>"]) (examplePlatform [failureEnvelope]) "/zones"
        []).1 = .error ("Failed to parse response: " ++ "Unexpected token") ∧
    (makeRequest (scriptedWorld [.ok (render failureEnvelope)]) (examplePlatform [failureEnvelope])
        "/zones" []).1 =
      .error ("API request failed: " ++ (examplePlatform [failureEnvelope]).jsonStringify
        (.arr [.obj [("code", .num ⟨false, "9109"⟩), ("message", .str "Invalid token")]])) ∧
    (makeRequest (scriptedWorld [.ok (render (zonesEnvelope exampleZones))])
        (examplePlatform [zonesEnvelope exampleZones]) "/zones" []).1 =
      .ok (zonesEnvelope exampleZones) :=
  ⟨(makeRequest_contract (scriptedWorld [.ok "<html>"]) (examplePlatform [failureEnvelope])
      "/zones" [] "<html>" (by rfl)).1 "Unexpected token" (by rfl),
   (makeRequest_contract (scriptedWorld [.ok (render failureEnvelope)])
      (examplePlatform [failureEnvelope]) "/zones" [] (render failureEnvelope) (by rfl)).2.1
      failureEnvelope _ (by rfl) (by rfl) (by rfl),
   (makeRequest_contract (scriptedWorld [.ok (render (zonesEnvelope exampleZones))])
      (examplePlatform [zonesEnvelope exampleZones]) "/zones" []
      (render (zonesEnvelope exampleZones)) (by rfl)).2.2 (zonesEnvelope exampleZones) (by rfl)
      (by rfl)⟩

/-- C6. When the account ID list derived from the environment is empty, `dumpAllSettings` ends
in `process.exit(1)` with the state it was entered in: no request has been sent and no file
written. -/
theorem dumpAllSettings_no_accounts (W : World) (P : Platform) (env : ProcessEnv) (fuel : Nat)
    (s : State) (hempty : ACCOUNT_IDS env = []) :
    dumpAllSettings W P (ACCOUNT_IDS env) (ZONES_TO_EXPORT env) fuel s = some (.exited 1 s) := by
  simp [dumpAllSettings, hempty]

/-- Witness for C6: no variable set, and `CF_ACCOUNT_IDS` made of commas and blanks. -/
theorem dumpAllSettings_no_accounts_witness :
    ACCOUNT_IDS ⟨some " , ,", none, none⟩ = [] ∧
    dumpAllSettings (scriptedWorld []) (examplePlatform []) (ACCOUNT_IDS ⟨some " , ,", none, none⟩)
        (ZONES_TO_EXPORT ⟨some " , ,", none, none⟩) 0 (initialState (examplePlatform [])) =
      some (.exited 1 (initialState (examplePlatform []))) :=
  ⟨by decide, dumpAllSettings_no_accounts _ _ ⟨some " , ,", none, none⟩ 0 _ (by decide)⟩

/-! ### Resource exporters -/

/-- Every failure of a request rejects the promise of `makeRequest`. -/
theorem settle_of_requestFails (W : World) (P : Platform) (n : Nat) (endpoint : String)
    (hfail : RequestFails W P n endpoint) : ∃ message, settle W P n endpoint = .error message := by
  rcases hfail with ⟨message, h⟩ | ⟨data, message, h, hparse⟩ | ⟨data, envelope, h, hparse, hsucc⟩
  · exact ⟨message, by simp [settle, h]⟩
  · exact ⟨"Failed to parse response: " ++ message, by simp [settle, h, onEnd, hparse]⟩
  · cases envelope <;> simp [getProp] at hsucc
    rename_i props
    exact ⟨"API request failed: " ++ stringifyInTemplate P (props.lookup "errors"), by
      simp [settle, h, onEnd, hparse, getProp, hsucc, truthy]⟩

/-- An exporter whose request is rejected sends that one request, returns `[]` and leaves the
file system alone. -/
theorem fetchAndSave_of_error (W : World) (P : Platform) (endpoint zoneName filename : String)
    (s : State) (message : String)
    (herr : settle W P s.requests.length endpoint = .error message) :
    fetchAndSave W P endpoint zoneName filename s =
      (some (.arr []), ⟨s.requests ++ [endpoint], s.fs⟩) := by
  simp [fetchAndSave, makeRequest, herr]

/-- An exporter whose request resolves with an envelope that has a `result` saves it and
returns it. -/
theorem fetchAndSave_of_result (W : World) (P : Platform) (endpoint zoneName filename : String)
    (s : State) (envelope result : Json)
    (hok : settle W P s.requests.length endpoint = .ok envelope)
    (hresult : getProp envelope "result" = .ok (some result)) :
    (fetchAndSave W P endpoint zoneName filename s).1 = some result ∧
    (fetchAndSave W P endpoint zoneName filename s).2.fs.writes =
      s.fs.writes ++ [(P.pathJoin (P.pathJoin (OUTPUT_DIR P) zoneName) filename,
        P.jsonStringifyIndent result)] := by
  simp only [fetchAndSave, makeRequest, hok, hresult, saveToFile]
  split <;> simp

/-- Each exporter is `fetchAndSave` on the endpoint and the file name of its kind. -/
theorem exporter_eq_fetchAndSave (kind : ResourceKind) (W : World) (P : Platform)
    (zoneId zoneName accountId : String) (s : State) :
    kind.exporter W P zoneId zoneName accountId s =
      fetchAndSave W P ("/zones/" ++ zoneId ++ kind.path) zoneName
        (kind.label ++ "_" ++ accountId ++ "_" ++ zoneName ++ ".json") s := by
  cases kind <;> rfl

/-- An exporter sends exactly one request, to the endpoint of its kind, whatever happens. -/
theorem exporter_requests (kind : ResourceKind) (W : World) (P : Platform)
    (zoneId zoneName accountId : String) (s : State) :
    (kind.exporter W P zoneId zoneName accountId s).2.requests =
      s.requests ++ ["/zones/" ++ zoneId ++ kind.path] := by
  rw [exporter_eq_fetchAndSave]
  rcases h1 : settle W P s.requests.length ("/zones/" ++ zoneId ++ kind.path) with m | response
  · simp [fetchAndSave, makeRequest, h1]
  · rcases h2 : getProp response "result" with m | result
    · simp [fetchAndSave, makeRequest, h1, h2]
    · cases result <;> simp [fetchAndSave, makeRequest, h1, h2, saveToFile]

/-- The loop body for a zone calls the seven exporters in the order of `ResourceKind.order`,
each with the zone's `id`, with the zone's name in which every `.` is replaced by `_`, and with
the account ID (lines 319-333). -/
theorem processZone_eq_foldl (W : World) (P : Platform) (accountId : String) (zone : Zone)
    (s : State) :
    processZone W P accountId zone s =
      ResourceKind.order.foldl
        (fun st kind => (kind.exporter W P zone.id (replaceDots zone.name) accountId st).2) s :=
  rfl

/-- The account-workers routine leaves the file system as it was. -/
theorem getAccountWorkers_fs (W : World) (P : Platform) (accountId : String) (s : State) :
    (getAccountWorkers W P accountId s).2.fs = s.fs := by
  rcases h1 : settle W P s.requests.length ("/accounts/" ++ accountId ++ "/workers/scripts")
    with m | response
  · simp [getAccountWorkers, makeRequest, h1]
  · rcases h2 : getProp response "result" with m | result <;>
      simp [getAccountWorkers, makeRequest, h1, h2]

/-- No dot is left in a folder name. -/
theorem replaceDots_no_dot (name : String) : '.' ∉ (replaceDots name).data := by
  simp only [replaceDots, List.mem_map, not_exists, not_and]
  intro c _
  split
  · decide
  · rename_i hc
    exact hc

/-- An exporter whose request resolves with an envelope without a `result` field sends that
one request, writes no file and returns `[]`: `writeFile` refuses `undefined` inside the `try`. -/
theorem fetchAndSave_of_no_result (W : World) (P : Platform) (endpoint zoneName filename : String)
    (s : State) (envelope : Json)
    (hok : settle W P s.requests.length endpoint = .ok envelope)
    (hresult : getProp envelope "result" = .ok none) :
    (fetchAndSave W P endpoint zoneName filename s).1 = some (.arr []) ∧
    (fetchAndSave W P endpoint zoneName filename s).2.fs.writes = s.fs.writes := by
  simp only [fetchAndSave, makeRequest, hok, hresult, saveToFile]
  split <;> simp

/-- C7, counterexample. The DNS request of zone `a.com` succeeds with the envelope
`{"success":true,"errors":[]}`, which has no `result` field: the exporter writes no file and
returns `[]`. -/
theorem exporter_without_result :
    (makeRequest (scriptedWorld [.ok (render bareEnvelope)]) (examplePlatform [bareEnvelope])
        ("/zones/" ++ "z1" ++ ResourceKind.dns_records.path) []).1 = .ok bareEnvelope ∧
    (ResourceKind.dns_records.exporter (scriptedWorld [.ok (render bareEnvelope)])
        (examplePlatform [bareEnvelope]) "z1" (replaceDots "a.com") "acc"
        (initialState (examplePlatform [bareEnvelope]))).1 = some (.arr []) ∧
    (ResourceKind.dns_records.exporter (scriptedWorld [.ok (render bareEnvelope)])
        (examplePlatform [bareEnvelope]) "z1" (replaceDots "a.com") "acc"
        (initialState (examplePlatform [bareEnvelope]))).2.fs.writes = [] :=
  ⟨by rfl, by rfl, by rfl⟩

/-- C7, amended. The loop body of `dumpAllSettings` for a zone is the seven exporters run in
order, each called with the zone's `id`, the folder (the zone name in which every `.` is
replaced by `_`, so no dot is left) and the ID of the account being processed, the account
loop handing each zone of the account to that body. For each of the seven kinds and every
state the exporter is called in: when its request resolves with an envelope that has a `result`
field, the exporter returns that result and adds exactly one write, whose path is the output
directory joined with the folder and with `<kind>_<accountId>_<folder>.json` and whose text
is `JSON.stringify(result, null, 2)`. `getAccountWorkers` leaves the file system as it was. -/
theorem exporter_saves_result (W : World) (P : Platform) (kind : ResourceKind) (zone : Zone)
    (accountId : String) (s : State) (envelope result : Json)
    (hok : (makeRequest W P ("/zones/" ++ zone.id ++ kind.path) s.requests).1 = .ok envelope)
    (hresult : getProp envelope "result" = .ok (some result)) :
    (kind.exporter W P zone.id (replaceDots zone.name) accountId s).1 = some result ∧
    (kind.exporter W P zone.id (replaceDots zone.name) accountId s).2.fs.writes =
      s.fs.writes ++
        [(P.pathJoin (P.pathJoin (OUTPUT_DIR P) (replaceDots zone.name))
            (kind.label ++ "_" ++ accountId ++ "_" ++ replaceDots zone.name ++ ".json"),
          P.jsonStringifyIndent result)] ∧
    (∀ st : State, processZone W P accountId zone st =
      ResourceKind.order.foldl
        (fun acc k => (k.exporter W P zone.id (replaceDots zone.name) accountId acc).2) st) ∧
    (∀ (zonesToExport : List String) (fuel : Nat) (rest : List String) (st : State),
      processAccounts W P zonesToExport fuel (accountId :: rest) st =
        match getZonesForAccount W P zonesToExport fuel accountId
            (st.requests ++ ["/accounts/" ++ accountId ++ "/workers/scripts"]) with
        | none => none
        | some (zones, log) =>
          processAccounts W P zonesToExport fuel rest
            (zones.foldl (fun acc z => processZone W P accountId z acc) ⟨log, st.fs⟩)) ∧
    (replaceDots zone.name).data = zone.name.data.map (fun c => if c = '.' then '_' else c) ∧
    '.' ∉ (replaceDots zone.name).data ∧
    ∀ (account : String) (st : State), (getAccountWorkers W P account st).2.fs = st.fs := by
  rw [exporter_eq_fetchAndSave]
  refine ⟨(fetchAndSave_of_result W P _ _ _ s envelope result hok hresult).1,
    (fetchAndSave_of_result W P _ _ _ s envelope result hok hresult).2,
    fun st => processZone_eq_foldl W P accountId zone st, ?_, rfl, replaceDots_no_dot _,
    fun account st => getAccountWorkers_fs W P account st⟩
  intro zonesToExport fuel rest st
  have hreq : (getAccountWorkers W P accountId st).2.requests =
      st.requests ++ ["/accounts/" ++ accountId ++ "/workers/scripts"] := by
    rcases h1 : settle W P st.requests.length ("/accounts/" ++ accountId ++ "/workers/scripts")
      with m | response
    · simp [getAccountWorkers, makeRequest, h1]
    · rcases h2 : getProp response "result" with m | result <;>
        simp [getAccountWorkers, makeRequest, h1, h2]
  simp only [processAccounts, hreq, getAccountWorkers_fs]

/-- Witness for C7, amended: in the run of `exampleWorld` the DNS request of zone `a.com`, the
fourth request of the run, is the only zone request that succeeds. The exporter writes the one
file, and so does the loop body for the zone as a whole. -/
theorem exporter_saves_result_witness :
    (ResourceKind.dns_records.exporter exampleWorld exampleRunPlatform "z1" (replaceDots "a.com")
        "acc" ⟨["/accounts/acc/workers/scripts", "/zones?account.id=acc&page=1&per_page=50",
          "/zones/z1/settings"], ⟨[], []⟩⟩).2.fs.writes =
      [("/srv/dumper/cloudflare-settings/a_com/dns_records_acc_a_com.json",
        "[\n  \x7b\n    \"id\": \"r1\",\n    \"type\": \"A\",\n    \"name\": \"a.com\",\n    \"content\": \"192.0.2.1\"\n  \x7d\n]")] ∧
    (processZone exampleWorld exampleRunPlatform "acc" ⟨"z1", "a.com"⟩
        ⟨["/accounts/acc/workers/scripts", "/zones?account.id=acc&page=1&per_page=50"],
          ⟨[], []⟩⟩).fs.writes =
      [("/srv/dumper/cloudflare-settings/a_com/dns_records_acc_a_com.json",
        "[\n  \x7b\n    \"id\": \"r1\",\n    \"type\": \"A\",\n    \"name\": \"a.com\",\n    \"content\": \"192.0.2.1\"\n  \x7d\n]")] :=
  ⟨(exporter_saves_result exampleWorld exampleRunPlatform .dns_records ⟨"z1", "a.com"⟩ "acc"
      ⟨["/accounts/acc/workers/scripts", "/zones?account.id=acc&page=1&per_page=50",
        "/zones/z1/settings"], ⟨[], []⟩⟩
      (successEnvelope (.arr [exampleRecord])) (.arr [exampleRecord]) (by rfl) (by rfl)).2.1.trans
      (by rfl),
   by decide!⟩

/-! ### The pagination loop -/

/-- One turn of the loop, in terms of what the page request delivers. -/
theorem zonePagesLoop_succ (W : World) (P : Platform) (accountId : String) (fuel page : Nat)
    (allZones : List Zone) (log : List String) :
    zonePagesLoop W P accountId (fuel + 1) page allZones log =
      match zonesReply W P log.length accountId page with
      | .error message => some (.error message, log ++ [zonesEndpoint accountId page])
      | .ok .outsideModel => none
      | .ok .notIterable =>
        some (.error "zones is not iterable", log ++ [zonesEndpoint accountId page])
      | .ok (.zones zones) =>
        if zones.length < perPage then
          some (.ok (allZones ++ zones), log ++ [zonesEndpoint accountId page])
        else
          zonePagesLoop W P accountId fuel (page + 1) (allZones ++ zones)
            (log ++ [zonesEndpoint accountId page]) := by
  rcases h1 : settle W P log.length (zonesEndpoint accountId page) with m | response
  · simp [zonePagesLoop, makeRequest, zonesReply, h1]
  · rcases h2 : getProp response "result" with m | result
    · simp [zonePagesLoop, makeRequest, zonesReply, h1, h2]
    · cases h3 : asZoneList result <;> simp [zonePagesLoop, makeRequest, zonesReply, h1, h2, h3]

/-- The loop runs through `k` full pages: it then stands at page `page + k` with the zones of
those pages collected and their requests logged. -/
theorem zonePagesLoop_full_pages (W : World) (P : Platform) (accountId : String)
    (pages : Nat → List Zone) (page : Nat) (allZones : List Zone) (log : List String) :
    ∀ (k fuel : Nat),
      (∀ i, i < k → zonesReply W P (log.length + i) accountId (page + i) = .ok (.zones (pages i)) ∧
        perPage ≤ (pages i).length) →
      zonePagesLoop W P accountId (fuel + k) page allZones log =
        zonePagesLoop W P accountId fuel (page + k) (allZones ++ (List.range k).flatMap pages)
          (log ++ (List.range k).map (fun i => zonesEndpoint accountId (page + i))) := by
  intro k
  induction k with
  | zero => intro fuel _; simp
  | succ k ih =>
    intro fuel hpages
    have hk := hpages k (Nat.lt_succ_self k)
    have hprev := ih (fuel + 1) (fun i hi => hpages i (Nat.lt_succ_of_lt hi))
    have hfuel : fuel + (k + 1) = fuel + 1 + k := by omega
    rw [hfuel, hprev, zonePagesLoop_succ]
    have hlen : (log ++ (List.range k).map (fun i => zonesEndpoint accountId (page + i))).length =
        log.length + k := by simp
    rw [hlen, hk.1]
    have hnot : ¬ (pages k).length < perPage := Nat.not_lt.mpr hk.2
    simp only [hnot, if_false, List.range_succ, List.flatMap_append, List.map_append,
      List.flatMap_singleton, List.map_singleton, List.append_assoc, Nat.add_assoc]

/-- The page requests of `pageRequests` are the ones the loop logs when it starts at page 1. -/
theorem pageRequests_eq (accountId : String) (k : Nat) :
    (List.range k).map (fun i => zonesEndpoint accountId (1 + i)) = pageRequests accountId k := by
  simp [pageRequests, Nat.add_comm]

/-- C4. Whenever its request fails (transport error, unparsable body, or `success` false),
each of the seven zone exporters and `getAccountWorkers` returns `[]`: the functions have no
error result, every path through them being inside their `try`. For `getZonesForAccount`:
if pages `1 .. k` are full pages and the request for page `k + 1` fails, the function returns
`[]` after those `k + 1` requests, so the zones of the `k` pages are discarded. -/
theorem fetch_routines_swallow_failure (W : World) (P : Platform) :
    (∀ (kind : ResourceKind) (zoneId zoneName accountId : String) (s : State),
      RequestFails W P s.requests.length ("/zones/" ++ zoneId ++ kind.path) →
      (kind.exporter W P zoneId zoneName accountId s).1 = some (.arr [])) ∧
    (∀ (accountId : String) (s : State),
      RequestFails W P s.requests.length ("/accounts/" ++ accountId ++ "/workers/scripts") →
      (getAccountWorkers W P accountId s).1 = some (.arr [])) ∧
    (∀ (zonesToExport : List String) (fuel : Nat) (accountId : String) (log : List String)
      (k : Nat) (pages : Nat → List Zone),
      (∀ i, i < k → zonesReply W P (log.length + i) accountId (i + 1) = .ok (.zones (pages i)) ∧
        perPage ≤ (pages i).length) →
      RequestFails W P (log.length + k) (zonesEndpoint accountId (k + 1)) →
      k < fuel →
      getZonesForAccount W P zonesToExport fuel accountId log =
        some ([], log ++ pageRequests accountId (k + 1))) := by
  refine ⟨?_, ?_, ?_⟩
  · intro kind zoneId zoneName accountId s hfail
    obtain ⟨message, herr⟩ := settle_of_requestFails W P _ _ hfail
    rw [exporter_eq_fetchAndSave, fetchAndSave_of_error W P _ _ _ s message herr]
  · intro accountId s hfail
    obtain ⟨message, herr⟩ := settle_of_requestFails W P _ _ hfail
    simp [getAccountWorkers, makeRequest, herr]
  · intro zonesToExport fuel accountId log k pages hpages hfail hfuel
    obtain ⟨message, herr⟩ := settle_of_requestFails W P _ _ hfail
    obtain ⟨rest, hrest⟩ : ∃ rest, fuel = rest + 1 + k := ⟨fuel - 1 - k, by omega⟩
    have hloop := zonePagesLoop_full_pages W P accountId pages 1 [] log k (rest + 1)
      (fun i hi => by rw [Nat.add_comm 1 i]; exact hpages i hi)
    have hlen : (log ++ pageRequests accountId k).length = log.length + k := by
      simp [pageRequests]
    have hreply : zonesReply W P (log.length + k) accountId (1 + k) = .error message := by
      simp [zonesReply, Nat.add_comm 1 k, herr]
    rw [pageRequests_eq] at hloop
    simp only [getZonesForAccount, hrest, hloop, zonePagesLoop_succ, hlen, hreply]
    simp [pageRequests, List.range_succ, Nat.add_comm]

/-- Witness for C4: a transport error for an exporter, a failure envelope for the account
workers, and a zone listing whose second page is not JSON after a full first page. -/
theorem fetch_routines_swallow_failure_witness :
    (ResourceKind.page_rules.exporter (scriptedWorld []) (examplePlatform []) "z1" "a_com" "acc"
        (initialState (examplePlatform []))).1 = some (.arr []) ∧
    (getAccountWorkers (scriptedWorld [.ok (render failureEnvelope)])
        (examplePlatform [failureEnvelope]) "acc"
        (initialState (examplePlatform [failureEnvelope]))).1 = some (.arr []) ∧
    getZonesForAccount (scriptedWorld [.ok (render (zonesEnvelope fiftyZones)), .ok "<html>"])
        (examplePlatform [zonesEnvelope fiftyZones]) [] 5 "acc" [] =
      some ([], [] ++ pageRequests "acc" (1 + 1)) :=
  ⟨(fetch_routines_swallow_failure (scriptedWorld []) (examplePlatform [])).1 .page_rules "z1"
      "a_com" "acc" (initialState (examplePlatform [])) (Or.inl ⟨"socket hang up", rfl⟩),
   (fetch_routines_swallow_failure (scriptedWorld [.ok (render failureEnvelope)])
      (examplePlatform [failureEnvelope])).2.1 "acc" (initialState (examplePlatform [failureEnvelope]))
      (Or.inr (Or.inr ⟨render failureEnvelope, failureEnvelope, rfl, by rfl, by rfl⟩)),
   (fetch_routines_swallow_failure
      (scriptedWorld [.ok (render (zonesEnvelope fiftyZones)), .ok "<html>"])
      (examplePlatform [zonesEnvelope fiftyZones])).2.2 [] 5 "acc" [] 1 (fun _ => fiftyZones)
      (fun i hi => by
        obtain rfl : i = 0 := by omega
        exact ⟨by decide!, by decide⟩)
      (Or.inr (Or.inl ⟨"<html>", "Unexpected token", rfl, by rfl⟩)) (by decide)⟩

/-- The first `k` pages of a paged server are the first `k * perPage` zones. -/
theorem flatMap_serverPage (zs : List Zone) (k : Nat) :
    (List.range k).flatMap (fun i => serverPage zs (i + 1)) = zs.take (k * perPage) := by
  induction k with
  | zero => simp
  | succ k ih =>
    rw [List.range_succ, List.flatMap_append, ih, List.flatMap_singleton, Nat.succ_mul,
      List.take_add]
    simp [serverPage]

/-- Against a server that holds the zones `zs` and serves them in pages, the loop ends after
`zs.length / perPage + 1` requests with all of `zs`. -/
theorem zonePagesLoop_paged_server (W : World) (P : Platform) (accountId : String)
    (log : List String) (zs : List Zone) (fuel : Nat)
    (hserver : ∀ n page, 1 ≤ page → page ≤ zs.length / perPage + 1 →
      zonesReply W P n accountId page = .ok (.zones (serverPage zs page)))
    (hfuel : zs.length / perPage + 1 ≤ fuel) :
    zonePagesLoop W P accountId fuel 1 [] log =
      some (.ok zs, log ++ pageRequests accountId (zs.length / perPage + 1)) := by
  obtain ⟨rest, hrest⟩ : ∃ rest, fuel = rest + 1 + zs.length / perPage :=
    ⟨fuel - 1 - zs.length / perPage, by omega⟩
  have hfull : ∀ i, i < zs.length / perPage →
      zonesReply W P (log.length + i) accountId (1 + i) = .ok (.zones (serverPage zs (i + 1))) ∧
        perPage ≤ (serverPage zs (i + 1)).length := by
    intro i hi
    refine ⟨by rw [Nat.add_comm 1 i]; exact hserver _ (i + 1) (by omega) (by omega), ?_⟩
    simp only [serverPage, perPage, List.length_take, List.length_drop] at hi ⊢
    omega
  have hloop := zonePagesLoop_full_pages W P accountId (fun i => serverPage zs (i + 1)) 1 [] log
    (zs.length / perPage) (rest + 1) hfull
  have hlast := hserver (log.length + zs.length / perPage) (1 + zs.length / perPage)
    (Nat.le_add_right 1 _) (Nat.le_of_eq (Nat.add_comm 1 _))
  have hshort : (serverPage zs (1 + zs.length / perPage)).length < perPage := by
    simp only [serverPage, perPage, List.length_take, List.length_drop]
    omega
  have hlen : (log ++ pageRequests accountId (zs.length / perPage)).length =
      log.length + zs.length / perPage := by simp [pageRequests]
  have hall : zs.take (zs.length / perPage * perPage) ++
      serverPage zs (1 + zs.length / perPage) = zs := by
    have h := List.take_add zs (zs.length / perPage * perPage) perPage
    have hle : zs.length ≤ zs.length / perPage * perPage + perPage := by
      simp only [perPage]
      omega
    rw [List.take_of_length_le hle] at h
    simp only [serverPage, Nat.add_sub_cancel_left]
    exact h.symm
  rw [pageRequests_eq, flatMap_serverPage] at hloop
  rw [hrest, hloop, zonePagesLoop_succ, hlen, hlast]
  simp only [hshort, if_true, List.nil_append, hall]
  simp [pageRequests, List.range_succ, Nat.add_comm]

/-- C2. Against a server that holds the zones `zs` (`N = zs.length`, any `N`, multiples of 50
included) and answers page `p` with the zones `(p - 1) * 50 .. min (p * 50) N - 1`, the
enumerator with no allow-list returns, once the fuel covers `N / 50 + 1` turns of the loop,
all of `zs` in server order, having sent exactly the requests for pages `1 .. N / 50 + 1` in
that order. -/
theorem getZonesForAccount_paged_server (W : World) (P : Platform) (accountId : String)
    (log : List String) (zs : List Zone) (fuel : Nat)
    (hserver : ∀ n page, 1 ≤ page → page ≤ zs.length / perPage + 1 →
      zonesReply W P n accountId page = .ok (.zones (serverPage zs page)))
    (hfuel : zs.length / perPage + 1 ≤ fuel) :
    getZonesForAccount W P [] fuel accountId log =
      some (zs, log ++ pageRequests accountId (zs.length / perPage + 1)) ∧
    (pageRequests accountId (zs.length / perPage + 1)).length = zs.length / 50 + 1 := by
  constructor
  · simp [getZonesForAccount, zonePagesLoop_paged_server W P accountId log zs fuel hserver hfuel,
      selectZones]
  · simp [pageRequests, perPage]

/-- In an `endpointWorld` the reply to a page request does not depend on when it is sent. -/
theorem zonesReply_endpointWorld (bodies : List (String × String)) (P : Platform) (n : Nat)
    (accountId : String) (page : Nat) :
    zonesReply (endpointWorld bodies) P n accountId page =
      zonesReply (endpointWorld bodies) P 0 accountId page := rfl

/-- Witness for C2: an account with the two example zones, served in one short page. -/
theorem getZonesForAccount_paged_server_witness :
    getZonesForAccount
        (endpointWorld [(zonesEndpoint "acc" 1, render (zonesEnvelope exampleZones))])
        (examplePlatform [zonesEnvelope exampleZones]) [] 1 "acc" [] =
      some (exampleZones, [] ++ pageRequests "acc" (exampleZones.length / perPage + 1)) ∧
    (pageRequests "acc" (exampleZones.length / perPage + 1)).length =
      exampleZones.length / 50 + 1 :=
  getZonesForAccount_paged_server
    (endpointWorld [(zonesEndpoint "acc" 1, render (zonesEnvelope exampleZones))])
    (examplePlatform [zonesEnvelope exampleZones]) "acc" [] exampleZones 1
    (fun n page h1 h2 => by
      obtain rfl : page = 1 := by
        have : exampleZones.length / perPage + 1 = 1 := by decide
        omega
      rw [zonesReply_endpointWorld]
      decide!)
    (by decide)

/-- C8, counterexample. For an account with exactly fifty zones the enumerator does send the
request for page 2, which the server answers with the empty page, and returns all fifty
zones. -/
theorem getZonesForAccount_fifty_zones :
    fiftyZones.length = 50 ∧
    zonesReply fiftyZonesWorld fiftyZonesPlatform 1 "acc" 2 = .ok (.zones []) ∧
    getZonesForAccount fiftyZonesWorld fiftyZonesPlatform [] 3 "acc" [] =
      some (fiftyZones, ["/zones?account.id=acc&page=1&per_page=50",
        "/zones?account.id=acc&page=2&per_page=50"]) :=
  ⟨by decide, by decide!, by decide!⟩

/-- C8, amended. When the number of zones is a positive multiple `m * 50` of the page size,
against a server that serves them in pages the enumerator with no allow-list sends the requests
for pages `1 .. m` and then the request for page `m + 1`, which the server answers with the
empty page, and returns all the zones. -/
theorem getZonesForAccount_exact_multiple (W : World) (P : Platform) (accountId : String)
    (log : List String) (zs : List Zone) (fuel m : Nat) (_hm : 0 < m)
    (hcount : zs.length = m * perPage)
    (hserver : ∀ n page, 1 ≤ page → page ≤ m + 1 →
      zonesReply W P n accountId page = .ok (.zones (serverPage zs page)))
    (hfuel : m + 1 ≤ fuel) :
    serverPage zs (m + 1) = [] ∧
    getZonesForAccount W P [] fuel accountId log =
      some (zs, log ++ pageRequests accountId m ++ [zonesEndpoint accountId (m + 1)]) := by
  have hdiv : zs.length / perPage = m := by
    rw [hcount]
    exact Nat.mul_div_cancel m (by decide)
  constructor
  · simp [serverPage, List.drop_eq_nil_of_le (Nat.le_of_eq hcount)]
  · have hloop := zonePagesLoop_paged_server W P accountId log zs fuel
      (by rw [hdiv]; exact hserver) (by rw [hdiv]; exact hfuel)
    rw [hdiv] at hloop
    simp [getZonesForAccount, hloop, selectZones, pageRequests, List.range_succ]

/-- Witness for C8, amended: the account with fifty zones. -/
theorem getZonesForAccount_exact_multiple_witness :
    serverPage fiftyZones (1 + 1) = [] ∧
    getZonesForAccount fiftyZonesWorld fiftyZonesPlatform [] 2 "acc" [] =
      some (fiftyZones, [] ++ pageRequests "acc" 1 ++ [zonesEndpoint "acc" (1 + 1)]) :=
  getZonesForAccount_exact_multiple fiftyZonesWorld fiftyZonesPlatform "acc" [] fiftyZones 2 1
    (by decide) (by decide)
    (fun n page h1 h2 => by
      have hpage : page = 1 ∨ page = 2 := by omega
      rw [fiftyZonesWorld, zonesReply_endpointWorld]
      rcases hpage with rfl | rfl <;> decide!)
    (by decide)

/-! ### The orchestrator -/

/-- The account-workers routine sends exactly one request, whatever happens. -/
theorem getAccountWorkers_requests (W : World) (P : Platform) (accountId : String) (s : State) :
    (getAccountWorkers W P accountId s).2.requests =
      s.requests ++ ["/accounts/" ++ accountId ++ "/workers/scripts"] := by
  rcases h1 : settle W P s.requests.length ("/accounts/" ++ accountId ++ "/workers/scripts")
    with m | response
  · simp [getAccountWorkers, makeRequest, h1]
  · rcases h2 : getProp response "result" with m | result <;>
      simp [getAccountWorkers, makeRequest, h1, h2]

/-- The loop body for a zone sends the seven requests of the zone, in order, whatever happens
to each of them. -/
theorem processZone_requests (W : World) (P : Platform) (accountId : String) (zone : Zone)
    (s : State) :
    (processZone W P accountId zone s).requests = s.requests ++ zoneRequests zone.id := by
  have h := fun (kind : ResourceKind) (st : State) =>
    exporter_requests kind W P zone.id (replaceDots zone.name) accountId st
  have h1 := h .all_settings
  have h2 := h .dns_records
  have h3 := h .page_rules
  have h4 := h .firewall_rules
  have h5 := h .workers
  have h6 := h .ssl_settings
  have h7 := h .caching_settings
  simp only [ResourceKind.exporter, ResourceKind.path] at h1 h2 h3 h4 h5 h6 h7
  simp only [processZone, h1, h2, h3, h4, h5, h6, h7, zoneRequests, List.append_assoc,
    List.singleton_append]
  rfl

/-- The loop over the zones of an account sends the seven requests of each zone, zone after
zone. -/
theorem foldl_processZone_requests (W : World) (P : Platform) (accountId : String)
    (zones : List Zone) :
    ∀ s : State, (zones.foldl (fun st zone => processZone W P accountId zone st) s).requests =
      s.requests ++ zones.flatMap (fun zone => zoneRequests zone.id) := by
  induction zones with
  | nil => intro s; simp
  | cons zone rest ih =>
    intro s
    rw [List.foldl_cons, ih, processZone_requests, List.flatMap_cons, List.append_assoc]

/-- When no zone listing has a full page beyond page `bound` and every listing is inside the
data model, the loop ends once the fuel reaches past `bound`, and what it has logged is a run of
consecutive page requests. -/
theorem zonePagesLoop_total (W : World) (P : Platform) (accountId : String) (bound : Nat)
    (hbound : ∀ n page, bound < page → isFullPage (zonesReply W P n accountId page) = false)
    (hmodel : ∀ n page, isOutsideModel (zonesReply W P n accountId page) = false) :
    ∀ (fuel page : Nat) (allZones : List Zone) (log : List String),
      1 ≤ fuel → bound + 2 ≤ page + fuel →
      ∃ r k, zonePagesLoop W P accountId fuel page allZones log =
        some (r, log ++ (List.range k).map (fun i => zonesEndpoint accountId (page + i))) := by
  intro fuel
  induction fuel with
  | zero => intro page allZones log h1; omega
  | succ fuel ih =>
    intro page allZones log _ hsum
    rw [zonePagesLoop_succ]
    have hb := hbound log.length page
    have hm := hmodel log.length page
    rcases hreply : zonesReply W P log.length accountId page with m | zl
    · exact ⟨.error m, 1, by simp [List.range_succ]⟩
    · cases zl with
      | outsideModel => simp [hreply, isOutsideModel] at hm
      | notIterable => exact ⟨.error "zones is not iterable", 1, by simp [List.range_succ]⟩
      | zones zs =>
        by_cases hshort : zs.length < perPage
        · exact ⟨.ok (allZones ++ zs), 1, by simp [hshort, List.range_succ]⟩
        · have hpage : page ≤ bound := by
            by_contra hgt
            have := hb (by omega)
            simp [hreply, isFullPage] at this
            omega
          obtain ⟨r, k, hk⟩ := ih (page + 1) (allZones ++ zs)
            (log ++ [zonesEndpoint accountId page]) (by omega) (by omega)
          refine ⟨r, k + 1, ?_⟩
          simp only [hshort, if_false, hk, List.range_succ_eq_map, List.map_cons, List.map_map,
            List.append_assoc, List.singleton_append, Nat.add_zero]
          congr 4
          apply List.map_congr_left
          intro i _
          simp [Nat.add_assoc, Nat.add_comm 1 i]

/-- Under the hypotheses of `zonePagesLoop_total` the enumerator returns, and what it has logged
is the requests for pages `1 .. k` of the account, for some `k`. -/
theorem getZonesForAccount_total (W : World) (P : Platform) (zonesToExport : List String)
    (bound fuel : Nat)
    (hbound : ∀ n accountId page, bound < page →
      isFullPage (zonesReply W P n accountId page) = false)
    (hmodel : ∀ n accountId page, isOutsideModel (zonesReply W P n accountId page) = false)
    (hfuel : bound < fuel) (accountId : String) (log : List String) :
    ∃ zones k, getZonesForAccount W P zonesToExport fuel accountId log =
      some (zones, log ++ pageRequests accountId k) := by
  obtain ⟨r, k, hk⟩ := zonePagesLoop_total W P accountId bound
    (fun n page => hbound n accountId page) (fun n page => hmodel n accountId page)
    fuel 1 [] log (by omega) (by omega)
  rw [pageRequests_eq] at hk
  cases r with
  | error m => exact ⟨[], k, by simp [getZonesForAccount, hk]⟩
  | ok allZones => exact ⟨selectZones P zonesToExport allZones, k, by simp [getZonesForAccount, hk]⟩

/-- The loop over accounts, under the hypotheses of `zonePagesLoop_total`, runs to its end and
sends the specified requests. -/
theorem processAccounts_requests (W : World) (P : Platform) (zonesToExport : List String)
    (bound fuel : Nat)
    (hbound : ∀ n accountId page, bound < page →
      isFullPage (zonesReply W P n accountId page) = false)
    (hmodel : ∀ n accountId page, isOutsideModel (zonesReply W P n accountId page) = false)
    (hfuel : bound < fuel) (accountIds : List String) :
    ∀ s : State, ∃ s1, processAccounts W P zonesToExport fuel accountIds s = some s1 ∧
      s1.requests = expectedRequests W P zonesToExport fuel accountIds s.requests := by
  induction accountIds with
  | nil => intro s; exact ⟨s, rfl, rfl⟩
  | cons accountId rest ih =>
    intro s
    obtain ⟨zones, k, hzones⟩ := getZonesForAccount_total W P zonesToExport bound fuel hbound
      hmodel hfuel accountId (s.requests ++ ["/accounts/" ++ accountId ++ "/workers/scripts"])
    obtain ⟨s1, hrun, hreq⟩ := ih
      (zones.foldl (fun st zone => processZone W P accountId zone st)
        ⟨s.requests ++ ["/accounts/" ++ accountId ++ "/workers/scripts"] ++
          pageRequests accountId k, (getAccountWorkers W P accountId s).2.fs⟩)
    refine ⟨s1, ?_, ?_⟩
    · simp only [processAccounts, getAccountWorkers_requests, hzones]
      exact hrun
    · have hcount : s.requests.length + (k + 1) - (s.requests.length + 1) = k := by omega
      rw [hreq, foldl_processZone_requests]
      simp [expectedRequests, hzones, pageRequests, hcount]

/-- C5, amended. For a non-empty list of account IDs and any server whose zone listings end
(no listing has a full page beyond page `bound`) and stay inside the data model (a listing
result is never a string or an array with an element that is not a zone object), whatever
else each request does, succeed or fail, `dumpAllSettings` returns normally once the fuel
reaches past `bound`, and
the requests it has sent are those of `expectedRequests`: for each account in configured order
the account-workers request, the pages of the zone listing, then for each zone returned by
`getZonesForAccount`, in that order, the seven requests `/settings`, `/dns_records`,
`/pagerules`, `/firewall/rules`, `/workers/scripts`, `/settings/ssl`, `/settings/cache_level`. -/
theorem dumpAllSettings_requests (W : World) (P : Platform) (accountIds zonesToExport : List String)
    (bound fuel : Nat) (s : State) (hne : accountIds ≠ [])
    (hbound : ∀ n accountId page, bound < page →
      isFullPage (zonesReply W P n accountId page) = false)
    (hmodel : ∀ n accountId page, isOutsideModel (zonesReply W P n accountId page) = false)
    (hfuel : bound < fuel) :
    ∃ s1, dumpAllSettings W P accountIds zonesToExport fuel s = some (.completed s1) ∧
      s1.requests = expectedRequests W P zonesToExport fuel accountIds s.requests := by
  obtain ⟨s1, hrun, hreq⟩ := processAccounts_requests W P zonesToExport bound fuel hbound hmodel
    hfuel accountIds s
  have hlen : accountIds.length ≠ 0 := fun h => hne (List.length_eq_zero.mp h)
  exact ⟨s1, by simp [dumpAllSettings, hlen, hrun], hreq⟩

/-- Witness for C5: the run of `exampleWorld`, where the account-workers request and thirteen of
the fourteen zone requests fail. All sixteen requests are sent. -/
theorem dumpAllSettings_requests_witness :
    (∃ s1, dumpAllSettings exampleWorld exampleRunPlatform ["acc"] [] 1
        (initialState exampleRunPlatform) = some (.completed s1) ∧
      s1.requests = expectedRequests exampleWorld exampleRunPlatform [] 1 ["acc"]
        (initialState exampleRunPlatform).requests) ∧
    expectedRequests exampleWorld exampleRunPlatform [] 1 ["acc"] [] =
      ["/accounts/acc/workers/scripts", "/zones?account.id=acc&page=1&per_page=50",
       "/zones/z1/settings", "/zones/z1/dns_records", "/zones/z1/pagerules",
       "/zones/z1/firewall/rules", "/zones/z1/workers/scripts", "/zones/z1/settings/ssl",
       "/zones/z1/settings/cache_level",
       "/zones/z2/settings", "/zones/z2/dns_records", "/zones/z2/pagerules",
       "/zones/z2/firewall/rules", "/zones/z2/workers/scripts", "/zones/z2/settings/ssl",
       "/zones/z2/settings/cache_level"] :=
  ⟨dumpAllSettings_requests exampleWorld exampleRunPlatform ["acc"] [] 0 1
      (initialState exampleRunPlatform) (by simp)
      (fun n accountId page _ => by
        rcases n with _ | _ | _ | _ | n <;> rfl)
      (fun n accountId page => by
        rcases n with _ | _ | _ | _ | n <;> rfl)
      (by decide),
   by decide!⟩

/-- Against a server on which every page of an account's zone listing is a full page, the loop
is still running when the fuel is used up, whatever the fuel. -/
theorem zonePagesLoop_never_ends (W : World) (P : Platform) (accountId : String)
    (hfull : ∀ n page, ∃ zs, zonesReply W P n accountId page = .ok (.zones zs) ∧
      perPage ≤ zs.length) :
    ∀ (fuel page : Nat) (allZones : List Zone) (log : List String),
      zonePagesLoop W P accountId fuel page allZones log = none := by
  intro fuel
  induction fuel with
  | zero => intro page allZones log; rfl
  | succ fuel ih =>
    intro page allZones log
    obtain ⟨zs, hreply, hlen⟩ := hfull log.length page
    have hnot : ¬ zs.length < perPage := Nat.not_lt.mpr hlen
    rw [zonePagesLoop_succ, hreply]
    simp only [hnot, if_false]
    exact ih _ _ _

/-- In a `constantWorld` the reply to a page request depends neither on when it is sent nor on
the account or the page. -/
theorem zonesReply_constantWorld (data : String) (P : Platform) (n : Nat) (accountId : String)
    (page : Nat) :
    zonesReply (constantWorld data) P n accountId page =
      zonesReply (constantWorld data) P 0 "" 0 := rfl

/-- In a `constantWorld` every request settles in the same way. -/
theorem settle_constantWorld (data : String) (P : Platform) (n : Nat) (endpoint : String) :
    settle (constantWorld data) P n endpoint = settle (constantWorld data) P 0 "" := rfl

/-- C5, counterexample. On `endlessWorld` every request succeeds and every zone listing page
is a full page of fifty zone objects, so the `while (true)` loop of `getZonesForAccount` never
breaks: for account `acc`, whatever the fuel, the run is still in that loop when the fuel is
used up, and `dumpAllSettings` does not complete. -/
theorem dumpAllSettings_endless_listing :
    (∀ n endpoint, (settle endlessWorld endlessPlatform n endpoint).toBool = true) ∧
    (∀ n accountId page,
      zonesReply endlessWorld endlessPlatform n accountId page = .ok (.zones fiftyZones)) ∧
    ∀ fuel, dumpAllSettings endlessWorld endlessPlatform ["acc"] [] fuel
      (initialState endlessPlatform) = none := by
  have hreply : ∀ n accountId page,
      zonesReply endlessWorld endlessPlatform n accountId page = .ok (.zones fiftyZones) := by
    intro n accountId page
    rw [endlessWorld, zonesReply_constantWorld]
    decide!
  refine ⟨?_, hreply, ?_⟩
  · intro n endpoint
    rw [endlessWorld, settle_constantWorld]
    decide!
  · intro fuel
    have hloop := zonePagesLoop_never_ends endlessWorld endlessPlatform "acc"
      (fun n page => ⟨fiftyZones, hreply n "acc" page, by decide⟩) fuel 1 []
    simp [dumpAllSettings, processAccounts, getZonesForAccount, hloop]

/-! ### Configuration -/

/-- A trimmed string does not end in white space. -/
theorem trimChars_last (cs : List Char) (c : Char) (h : (trimChars cs).getLast? = some c) :
    isWhiteSpace c = false := by
  rw [trimChars, List.getLast?_reverse] at h
  have hdrop := List.head?_dropWhile_not isWhiteSpace (cs.dropWhile isWhiteSpace).reverse
  rw [h] at hdrop
  simpa using hdrop

/-- A trimmed string does not start with white space. -/
theorem trimChars_head (cs : List Char) (c : Char) (h : (trimChars cs).head? = some c) :
    isWhiteSpace c = false := by
  have hpre : trimChars cs <+: cs.dropWhile isWhiteSpace := by
    rw [trimChars, ← List.reverse_suffix, List.reverse_reverse]
    exact List.dropWhile_suffix _
  obtain ⟨t, ht⟩ := hpre
  have hhead : (cs.dropWhile isWhiteSpace).head? = some c := by
    rw [← ht]
    cases htc : trimChars cs with
    | nil => simp [htc] at h
    | cons a l =>
      rw [htc] at h
      simpa using h
  have hdrop := List.head?_dropWhile_not isWhiteSpace cs
  rw [hhead] at hdrop
  simpa using hdrop

/-- What does hold of the derived account IDs: none starts or ends with white space, and none
is empty when `CF_ACCOUNT_IDS` itself lists an ID (lines 18-21 filter the trimmed entries).
Only the fallback to `CF_ACCOUNT_ID` can add an empty ID. -/
theorem ACCOUNT_IDS_trimmed (env : ProcessEnv) (id : String) (hid : id ∈ ACCOUNT_IDS env) :
    (∀ c, id.data.head? = some c → isWhiteSpace c = false) ∧
    (∀ c, id.data.getLast? = some c → isWhiteSpace c = false) ∧
    (((splitComma (orEmpty env.CF_ACCOUNT_IDS)).map trim).filter (fun e => e ≠ "") ≠ [] →
      id ≠ "") := by
  have hcases : (∃ raw, id = trim raw) ∧
      (((splitComma (orEmpty env.CF_ACCOUNT_IDS)).map trim).filter (fun e => e ≠ "") ≠ [] →
        id ≠ "") := by
    simp only [ACCOUNT_IDS] at hid
    split at hid
    · rename_i hfallback
      have hnil := List.length_eq_zero.mp hfallback.1
      rw [hnil] at hid
      simp only [List.nil_append, List.mem_singleton] at hid
      exact ⟨⟨_, hid⟩, fun hne => absurd hnil hne⟩
    · simp only [List.mem_filter, List.mem_map, decide_eq_true_eq] at hid
      obtain ⟨⟨raw, _, hraw⟩, hne⟩ := hid
      exact ⟨⟨raw, hraw.symm⟩, fun _ => hne⟩
  obtain ⟨⟨raw, hraw⟩, hne⟩ := hcases
  subst hraw
  exact ⟨fun c h => trimChars_head raw.data c h, fun c h => trimChars_last raw.data c h, hne⟩

end CloudflareDumper
